import Mathlib

set_option maxRecDepth 8000

/-!
# PolicyMatcher_PA: verification of the rule evaluation engine and registry

Shallow embedding of the core of the PolicyMatcher_PA repository:

* `src/policy_matcher/rules.py` — `RuleCondition`, `Rule`, `EvaluationResult`,
  the nested `evaluate_condition` helper and `RuleEngine.evaluate`;
* `src/policy_matcher/patient.py` — `PatientContext`;
* `src/policy_matcher/pipeline/mining.py` — `CandidateRule`, `RuleMiner.mine_rules`;
* `src/policy_matcher/pipeline/registry.py` — `RegistryStore` operations over the
  persisted registry document.

Python runtime values flowing through conditions (ints, strings, booleans,
lists) are modelled by the inductive `Value`; the relevant parts of Python's
`==`, `>=`, `<=`, `in` and `str()` semantics are modelled explicitly, with
`Option` capturing comparisons that raise `TypeError` (the `except` clause of
`evaluate_condition` maps a raised comparison error to `"FAIL"`).
-/

namespace PolicyMatcher

/-- Python runtime values that can appear as condition values or context
values: ints, strings, booleans and (nested) lists. -/
inductive Value where
  | int (n : Int)
  | str (s : String)
  | bool (b : Bool)
  | list (vs : List Value)
deriving Repr

/-- Condition/rule evaluation status: the string statuses
`"PASS"` / `"FAIL"` / `"PEND"` of `rules.py`. -/
inductive Status where
  | PASS
  | FAIL
  | PEND
deriving DecidableEq, Repr

mutual

/-- Python `==` on the modelled value universe: numeric cross-equality between
`bool` and `int` (Python `True == 1`), structural equality on lists, `False`
on mismatched types (Python `==` never raises for these types). -/
def pyEq : Value → Value → Bool
  | .int a, .int b => a == b
  | .str a, .str b => a == b
  | .bool a, .bool b => a == b
  | .bool a, .int b => (if a then (1 : Int) else 0) == b
  | .int a, .bool b => a == (if b then (1 : Int) else 0)
  | .list a, .list b => pyEqList a b
  | _, _ => false

/-- Elementwise Python `==` on lists. -/
def pyEqList : List Value → List Value → Bool
  | [], [] => true
  | a :: as, b :: bs => pyEq a b && pyEqList as bs
  | _, _ => false

end

mutual

/-- Python rich comparison (`<`, `>=`, ...) on the modelled values, returning
`none` where Python raises `TypeError` (ordering between unrelated types).
`bool` compares numerically with `int` (`True` as `1`, `False` as `0`). -/
def pyCmp : Value → Value → Option Ordering
  | .int a, .int b => some (compare a b)
  | .str a, .str b => some (compare a b)
  | .bool a, .bool b =>
      some (compare (if a then (1 : Int) else 0) (if b then (1 : Int) else 0))
  | .bool a, .int b => some (compare (if a then (1 : Int) else 0) b)
  | .int a, .bool b => some (compare a (if b then (1 : Int) else 0))
  | .list a, .list b => pyCmpList a b
  | _, _ => none

/-- Lexicographic Python comparison of lists, propagating element-level
`TypeError`. -/
def pyCmpList : List Value → List Value → Option Ordering
  | [], [] => some .eq
  | [], _ :: _ => some .lt
  | _ :: _, [] => some .gt
  | a :: as, b :: bs =>
      match pyCmp a b with
      | none => none
      | some .eq => pyCmpList as bs
      | some o => some o

end

/-- Python `actual >= val`; `none` models a raised `TypeError`. -/
def pyGe (a b : Value) : Option Bool :=
  (pyCmp a b).map (fun o => o ≠ Ordering.lt)

/-- Python `actual <= val`; `none` models a raised `TypeError`. -/
def pyLe (a b : Value) : Option Bool :=
  (pyCmp a b).map (fun o => o ≠ Ordering.gt)

/-- Substring test: `needle in hay` for Python strings. -/
def strContains (hay needle : String) : Bool :=
  decide (List.IsInfix needle.data hay.data)

/-- Python membership `x in c`: list membership via `==`, substring test when
the container is a string (requiring `x` to be a string), `TypeError`
(`none`) otherwise. -/
def pyIn (x c : Value) : Option Bool :=
  match c with
  | .list vs => some (vs.any (fun v => pyEq v x))
  | .str s =>
      match x with
      | .str xs => some (strContains s xs)
      | _ => none
  | _ => none

/-- Rendering of atomic values for list elements inside `repr`/`str`
(contexts only ever hold flat lists of strings, so nested lists are
abbreviated). -/
def pyReprAux : Value → String
  | .int n => toString n
  | .str s => "\x27" ++ s ++ "\x27"
  | .bool b => if b then "True" else "False"
  | .list _ => "[...]"

/-- Python `repr` of a modelled value (string values quoted), used by the
evidence string's dict rendering. -/
def pyRepr : Value → String
  | .int n => toString n
  | .str s => "\x27" ++ s ++ "\x27"
  | .bool b => if b then "True" else "False"
  | .list vs => "[" ++ String.intercalate ", " (vs.map pyReprAux) ++ "]"

/-- Python `str(actual_value)` on the modelled values. -/
def pyStr : Value → String
  | .int n => toString n
  | .str s => s
  | .bool b => if b then "True" else "False"
  | .list vs => "[" ++ String.intercalate ", " (vs.map pyReprAux) ++ "]"

/-- `patient.py`: `PatientContext`, the normalized patient fact bag. -/
structure PatientContext where
  age : Int
  gender : String
  diagnosis_codes : List String
  procedure_codes : List String
  prior_treatments : List String
  imaging_reports : List String
  medications : List String
deriving Repr

/-- Lookup in the dict produced by `patient.model_dump()`: its keys are
exactly the seven `PatientContext` field names; `none` models
`param not in ctx`. -/
def PatientContext.lookup (p : PatientContext) (param : String) : Option Value :=
  if param = "age" then some (.int p.age)
  else if param = "gender" then some (.str p.gender)
  else if param = "diagnosis_codes" then some (.list (p.diagnosis_codes.map .str))
  else if param = "procedure_codes" then some (.list (p.procedure_codes.map .str))
  else if param = "prior_treatments" then some (.list (p.prior_treatments.map .str))
  else if param = "imaging_reports" then some (.list (p.imaging_reports.map .str))
  else if param = "medications" then some (.list (p.medications.map .str))
  else none

/-- Python `repr` of the `patient.model_dump()` dict, as interpolated into the
evidence f-string `f"Patient data: {context}"`. -/
def reprContext (p : PatientContext) : String :=
  "\x7b\x27age\x27: " ++ toString p.age ++
  ", \x27gender\x27: " ++ pyRepr (.str p.gender) ++
  ", \x27diagnosis_codes\x27: " ++ pyRepr (.list (p.diagnosis_codes.map .str)) ++
  ", \x27procedure_codes\x27: " ++ pyRepr (.list (p.procedure_codes.map .str)) ++
  ", \x27prior_treatments\x27: " ++ pyRepr (.list (p.prior_treatments.map .str)) ++
  ", \x27imaging_reports\x27: " ++ pyRepr (.list (p.imaging_reports.map .str)) ++
  ", \x27medications\x27: " ++ pyRepr (.list (p.medications.map .str)) ++ "\x7d"

/-- `rules.py`: `RuleCondition`. -/
structure RuleCondition where
  parameter : String
  operator : String
  value : Value
deriving Repr

/-- `rules.py`: `Rule`. `parent_policy_id : Optional[str]` is `Option`. -/
structure Rule where
  id : String
  type : String
  conditions : List RuleCondition
  description : String
  required : Bool
  parent_policy_id : Option String
deriving Repr

/-- `rules.py`: `EvaluationResult`; the constant float confidence `1.0`
(never overridden by the engine) is modelled as the rational `1`. -/
structure EvaluationResult where
  rule_id : String
  status : Status
  score : ℚ
  evidence : String
deriving Repr, DecidableEq

/-- Lift the `Option Bool` outcome of a guarded Python comparison to a
status: a computed comparison yields `PASS`/`FAIL`; `none` (a raised
comparison error) is caught by the `except` clause and yields `FAIL`. -/
def cmpStatus : Option Bool → Status
  | some true => .PASS
  | some false => .FAIL
  | none => .FAIL

/-- The `contains` branch of `evaluate_condition`: list membership when the
context value is a Python list, otherwise `val in str(actual_value)`
(which raises, hence `none`, when `val` is not a string). -/
def containsCheck (actual val : Value) : Option Bool :=
  match actual with
  | .list vs => some (vs.any (fun v => pyEq v val))
  | _ => pyIn val (.str (pyStr actual))

/-- `rules.py` `evaluate_condition(cond, ctx)`: manual-review sentinel and
missing parameter give `PEND`; the five known operators compare; an unknown
operator gives `PEND`; a raised comparison error is caught and gives
`FAIL`. -/
def evaluate_condition (cond : RuleCondition) (ctx : PatientContext) : Status :=
  if cond.parameter = "manual_review" then .PEND
  else
    match ctx.lookup cond.parameter with
    | none => .PEND
    | some actual =>
        if cond.operator = "equals" then
          if pyEq actual cond.value then .PASS else .FAIL
        else if cond.operator = "gte" then cmpStatus (pyGe actual cond.value)
        else if cond.operator = "lte" then cmpStatus (pyLe actual cond.value)
        else if cond.operator = "one_of" then cmpStatus (pyIn actual cond.value)
        else if cond.operator = "contains" then cmpStatus (containsCheck actual cond.value)
        else .PEND

/-- The per-rule condition loop of `RuleEngine.evaluate`: accumulator starts
at `PASS`; `FAIL` breaks immediately; `PEND` overwrites the accumulator and
continues; `PASS` leaves it unchanged. -/
def foldConditionsFrom (ctx : PatientContext) : List RuleCondition → Status → Status
  | [], acc => acc
  | c :: rest, acc =>
      match evaluate_condition c ctx with
      | .FAIL => .FAIL
      | .PEND => foldConditionsFrom ctx rest .PEND
      | .PASS => foldConditionsFrom ctx rest acc

/-- Per-rule status: the condition loop started from `PASS`. -/
def foldConditions (conds : List RuleCondition) (ctx : PatientContext) : Status :=
  foldConditionsFrom ctx conds .PASS

/-- The status `RuleEngine.evaluate` computes for one rule. -/
def ruleStatus (r : Rule) (ctx : PatientContext) : Status :=
  foldConditions r.conditions ctx

/-- The `EvaluationResult` built for one rule (status, default score `1.0`,
evidence string over the full fact bag). -/
def mkResult (r : Rule) (ctx : PatientContext) : EvaluationResult :=
  { rule_id := r.id
    status := ruleStatus r ctx
    score := 1
    evidence := "Patient data: " ++ reprContext ctx }

/-- The rule loop of `RuleEngine.evaluate`, returning
`(results, failed_rules, missing_info)` in declaration order. -/
def evalRules (ctx : PatientContext) : List Rule →
    List EvaluationResult × List EvaluationResult × List EvaluationResult
  | [] => ([], [], [])
  | rule :: rest =>
      let st := foldConditions rule.conditions ctx
      let result := mkResult rule ctx
      let (rs, fs, ms) := evalRules ctx rest
      ( result :: rs,
        if st = .FAIL ∧ rule.required = true then result :: fs else fs,
        if st = .FAIL ∧ rule.required = true then ms
        else if st = .PEND then result :: ms
        else ms )

/-- The aggregated output dict of `RuleEngine.evaluate`. -/
structure EvalOutput where
  decision : String
  failed_rules : List EvaluationResult
  all_results : List EvaluationResult
deriving Repr

/-- The aggregation at the end of `RuleEngine.evaluate`:
`if not failed_rules and not missing_info: APPROVE elif missing_info: PEND
else: DENY`. -/
def decisionOf (failed missing : List EvaluationResult) : String :=
  if failed = [] ∧ missing = [] then "APPROVE"
  else if missing ≠ [] then "PEND"
  else "DENY"

namespace RuleEngine

/-- `rules.py` `RuleEngine.evaluate(rules, patient)`. -/
def evaluate (rules : List Rule) (patient : PatientContext) : EvalOutput :=
  let (results, failed_rules, missing_info) := evalRules patient rules
  { decision := decisionOf failed_rules missing_info
    failed_rules := failed_rules
    all_results := results }

end RuleEngine

/-- `mining.py`: `CandidateRule` (the pydantic object, embedding a `Rule`).
The float confidence is modelled as a rational. -/
structure CandidateRule where
  id : String
  source_chunk_id : String
  source_text : String
  confidence : ℚ
  status : String
  rule_data : Rule
deriving Repr

/-- The `rule_data` JSON object of a persisted candidate: the serialized
`Rule` fields plus the extra `logic_expression` key that
`RegistryStore.update_rule_status` may write into the dict
(`none` when the key is absent). -/
structure StoredRule where
  id : String
  type : String
  conditions : List RuleCondition
  description : String
  required : Bool
  parent_policy_id : Option String
  logic_expression : Option String
deriving Repr

/-- A persisted `CandidateRule` record inside the registry document. -/
structure StoredCandidate where
  id : String
  source_chunk_id : String
  source_text : String
  confidence : ℚ
  status : String
  rule_data : StoredRule
deriving Repr

/-- Policy metadata registered by `add_candidates`:
`{"id": policy_id, "status": "INGESTED"}`. -/
structure PolicyMeta where
  id : String
  status : String
deriving Repr

/-- The persisted registry document `{"policies": {...}, "rules": [...]}`,
the unit `load_registry`/`save_registry` reads and rewrites whole. -/
structure Registry where
  policies : List (String × PolicyMeta)
  rules : List StoredCandidate
deriving Repr

/-- `json.loads(c.model_dump_json())`: the persisted record of a candidate.
The serialized `Rule` carries exactly the `Rule` fields, so
`logic_expression` is absent. -/
def serializeCandidate (c : CandidateRule) : StoredCandidate :=
  { id := c.id
    source_chunk_id := c.source_chunk_id
    source_text := c.source_text
    confidence := c.confidence
    status := c.status
    rule_data :=
      { id := c.rule_data.id
        type := c.rule_data.type
        conditions := c.rule_data.conditions
        description := c.rule_data.description
        required := c.rule_data.required
        parent_policy_id := c.rule_data.parent_policy_id
        logic_expression := none } }

/-- `Rule(**r_dict["rule_data"])`: pydantic rebuilds the `Rule` from its own
declared fields and ignores the extra `logic_expression` key. -/
def StoredRule.toRule (sr : StoredRule) : Rule :=
  { id := sr.id
    type := sr.type
    conditions := sr.conditions
    description := sr.description
    required := sr.required
    parent_policy_id := sr.parent_policy_id }

/-- Python truthiness of an `Optional[str]` value (`None` and `""` are
falsy). -/
def strTruthy : Option String → Bool
  | none => false
  | some s => decide (s ≠ "")

namespace RegistryStore

/-- `registry.py` `add_candidates(candidates, policy_id)`: register the
policy id if new, set each candidate's embedded rule's `parent_policy_id`,
append the serialized candidates, persist the whole document. -/
def add_candidates (reg : Registry) (candidates : List CandidateRule)
    (policy_id : String) : Registry :=
  let policies :=
    if (reg.policies.lookup policy_id).isSome then reg.policies
    else reg.policies ++ [(policy_id, { id := policy_id, status := "INGESTED" })]
  { policies := policies
    rules := reg.rules ++ candidates.map (fun c =>
      serializeCandidate
        { c with rule_data := { c.rule_data with parent_policy_id := some policy_id } }) }

/-- `registry.py` `get_rules_by_status(status)`. -/
def get_rules_by_status (reg : Registry) (status : String) : List StoredCandidate :=
  reg.rules.filter (fun r => r.status == status)

/-- The in-place mutation `update_rule_status` applies to the matched
record: set `status`; when `new_logic` is truthy, write it under the
`logic_expression` key of the `rule_data` dict (conditions untouched). -/
def updateCandidate (c : StoredCandidate) (status : String)
    (new_logic : Option String) : StoredCandidate :=
  { c with
    status := status
    rule_data :=
      if strTruthy new_logic then { c.rule_data with logic_expression := new_logic }
      else c.rule_data }

/-- The for-loop of `update_rule_status`: update the first candidate whose
own id equals `rule_uuid` and break; `none` when no candidate matches. -/
def updateFirst (uid status : String) (new_logic : Option String) :
    List StoredCandidate → Option (List StoredCandidate)
  | [] => none
  | c :: rest =>
      if c.id = uid then some (updateCandidate c status new_logic :: rest)
      else (updateFirst uid status new_logic rest).map (c :: ·)

/-- `registry.py` `update_rule_status(rule_uuid, status, new_logic)`.
Returns the persisted registry after the call together with the `updated`
flag; the document is rewritten (`save_registry`) iff a candidate matched. -/
def update_rule_status (reg : Registry) (rule_uuid status : String)
    (new_logic : Option String) : Registry × Bool :=
  match updateFirst rule_uuid status new_logic reg.rules with
  | some newRules => ({ reg with rules := newRules }, true)
  | none => (reg, false)

/-- `registry.py` `get_approved_rules(policy_id)`: materialize a `Rule` from
every APPROVED candidate, skipping (when `policy_id` is truthy) those whose
`parent_policy_id` differs. -/
def get_approved_rules (reg : Registry) (policy_id : Option String) : List Rule :=
  reg.rules.filterMap (fun r =>
    if r.status = "APPROVED" then
      if strTruthy policy_id ∧ r.rule_data.parent_policy_id ≠ policy_id then none
      else some r.rule_data.toRule
    else none)

end RegistryStore

/-- A text chunk as consumed by `RuleMiner.mine_rules`: its `id`, `text`,
and the optional `metadata["rule_type"]` entry. -/
structure Chunk where
  id : String
  text : String
  rule_type_meta : Option String
deriving Repr

/-- The dict returned by the extraction collaborator `llm.extract_rule`;
each key is read with `extraction.get(key, default)`, so every field is
optional. A falsy collaborator result (`None` or an empty dict) is modelled
as `none` at the call site. -/
structure Extraction where
  rule_type : Option String
  conditions : Option (List RuleCondition)
  description : Option String
deriving Repr

/-- Python `text[:100] + "..."`, the truncated description used by the
miner's fallback and defaults. -/
def truncate100 (s : String) : String := s.take 100 ++ "..."

/-- The single fallback condition
`{"parameter": "manual_review", "operator": "equals", "value": True}`. -/
def manualReviewCondition : RuleCondition :=
  { parameter := "manual_review", operator := "equals", value := .bool true }

namespace RuleMiner

/-- One iteration of the chunk loop in `RuleMiner.mine_rules`. The fresh
uuid-based ids (`str(uuid.uuid4())` for the candidate and
`f"R-{uuid.uuid4().hex[:8]}"` for the rule) are supplied by the injected id
generators `cid`/`rid` applied to the chunk's position `i`. -/
def mineChunk (extract : String → Option Extraction) (cid rid : Nat → String)
    (i : Nat) (chunk : Chunk) : CandidateRule :=
  let default_rule_type := chunk.rule_type_meta.getD "Eligibility"
  let extraction : Extraction :=
    match extract chunk.text with
    | none =>
        { rule_type := some default_rule_type
          conditions := some [manualReviewCondition]
          description := some (truncate100 chunk.text) }
    | some e => e
  { id := cid i
    source_chunk_id := chunk.id
    source_text := chunk.text
    confidence := 3 / 4
    status := "DRAFT"
    rule_data :=
      { id := rid i
        type := extraction.rule_type.getD default_rule_type
        conditions := extraction.conditions.getD []
        description := extraction.description.getD (truncate100 chunk.text)
        required := true
        parent_policy_id := some "UNKNOWN" } }

/-- The chunk loop of `mine_rules`, carrying the position used by the id
generators. -/
def mineFrom (extract : String → Option Extraction) (cid rid : Nat → String) :
    Nat → List Chunk → List CandidateRule
  | _, [] => []
  | i, chunk :: rest =>
      mineChunk extract cid rid i chunk :: mineFrom extract cid rid (i + 1) rest

/-- `mining.py` `RuleMiner.mine_rules(chunks)`. -/
def mine_rules (extract : String → Option Extraction) (cid rid : Nat → String)
    (chunks : List Chunk) : List CandidateRule :=
  mineFrom extract cid rid 0 chunks

end RuleMiner

/-! ### The fold step named by the specification

`statusStep` is the combination law §4.2 describes (FAIL absorbs, PEND
overrides a non-FAIL accumulator, PASS leaves it); the theorems below relate
the engine's short-circuiting loop to the plain left fold of this step. -/

/-- One step of the per-rule status fold: FAIL dominates, PEND dominates
PASS, PASS leaves the accumulator unchanged. -/
def statusStep (acc : Status) : Status → Status
  | .FAIL => .FAIL
  | .PEND => if acc = .FAIL then .FAIL else .PEND
  | .PASS => acc

/-! ### Concrete fixtures for witnesses and counterexamples

The demo patient and rules of spec §8 (age 17, diagnosis code M17.11), plus
a small registry document and a text chunk. -/

/-- The §8 demo patient: age 17 with knee-osteoarthritis code M17.11. -/
def demoPatient : PatientContext :=
  { age := 17, gender := "F", diagnosis_codes := ["M17.11"], procedure_codes := []
    prior_treatments := [], imaging_reports := [], medications := [] }

/-- Condition `{age, gte, 18}`. -/
def demoAgeCond : RuleCondition := { parameter := "age", operator := "gte", value := .int 18 }

/-- Condition `{diagnosis_codes, contains, "M17.11"}`. -/
def demoDxCond : RuleCondition :=
  { parameter := "diagnosis_codes", operator := "contains", value := .str "M17.11" }

/-- A PEND-producing condition (manual-review sentinel). -/
def demoPendCond : RuleCondition :=
  { parameter := "manual_review", operator := "equals", value := .bool true }

/-- Required 18+ eligibility rule. -/
def demoAgeRule : Rule :=
  { id := "R-age", type := "Eligibility", conditions := [demoAgeCond]
    description := "18 or older", required := true, parent_policy_id := none }

/-- Required diagnosis rule. -/
def demoDxRule : Rule :=
  { id := "R-dx", type := "MedicalNecessity", conditions := [demoDxCond]
    description := "knee OA", required := true, parent_policy_id := none }

/-- Non-required manual-review rule (PEND-producing). -/
def demoPendRule : Rule :=
  { id := "R-mr", type := "Documentation", conditions := [demoPendCond]
    description := "manual review", required := false, parent_policy_id := none }

/-- A stored candidate with empty conditions, DRAFT, for policy P1. -/
def demoStoredCandidate : StoredCandidate :=
  { id := "X", source_chunk_id := "chunk-0", source_text := "some policy text"
    confidence := 3 / 4, status := "DRAFT"
    rule_data :=
      { id := "R-1", type := "Eligibility", conditions := [], description := "d"
        required := true, parent_policy_id := some "P1", logic_expression := none } }

/-- A one-candidate registry document for policy P1. -/
def demoRegistry : Registry :=
  { policies := [("P1", { id := "P1", status := "INGESTED" })]
    rules := [demoStoredCandidate] }

/-- A text chunk without a `rule_type` metadata entry. -/
def demoChunk : Chunk :=
  { id := "chunk-0", text := "some policy text", rule_type_meta := none }

/-- Deterministic stand-in for the candidate-id uuid generator. -/
def demoCid : Nat → String := fun i => "CAND-" ++ toString i

/-- Deterministic stand-in for the rule-id uuid generator. -/
def demoRid : Nat → String := fun i => "R-" ++ toString i

/-! ## Theorems about the condition evaluator and the per-rule fold -/

/-- A fold over `statusStep` started from `FAIL` stays `FAIL`. -/
theorem foldl_statusStep_fail (l : List Status) : l.foldl statusStep .FAIL = .FAIL := by
  induction l with
  | nil => rfl
  | cons s rest ih => cases s <;> simpa [statusStep] using ih

/-- The engine's short-circuiting condition loop agrees with the plain left
fold of `statusStep` whenever the accumulator is not already `FAIL`. -/
theorem foldConditionsFrom_eq_foldl (ctx : PatientContext) (conds : List RuleCondition) :
    ∀ acc, acc ≠ .FAIL →
      foldConditionsFrom ctx conds acc =
        (conds.map (fun c => evaluate_condition c ctx)).foldl statusStep acc := by
  induction conds with
  | nil => intro acc _; rfl
  | cons c rest ih =>
      intro acc hacc
      simp only [foldConditionsFrom, List.map_cons, List.foldl_cons]
      cases h : evaluate_condition c ctx
      · rw [ih acc hacc]
        rfl
      · simp only [statusStep, foldl_statusStep_fail]
      · rw [ih .PEND (by simp)]
        have : statusStep acc .PEND = .PEND := by
          simp [statusStep, hacc]
        rw [this]

/-- Once a `FAIL` condition is reached, the loop returns `FAIL` whatever the
remaining conditions are and whatever the accumulator held. -/
theorem foldConditionsFrom_fail_short_circuit (ctx : PatientContext)
    (c : RuleCondition) (post : List RuleCondition)
    (h : evaluate_condition c ctx = .FAIL) :
    ∀ (pre : List RuleCondition) (acc : Status),
      foldConditionsFrom ctx (pre ++ c :: post) acc = .FAIL := by
  intro pre
  induction pre with
  | nil => intro acc; simp [foldConditionsFrom, h]
  | cons p rest ih =>
      intro acc
      rw [List.cons_append]
      cases hp : evaluate_condition p ctx <;> simp only [foldConditionsFrom, hp]
      · exact ih acc
      · exact ih .PEND

/-- C2: a rule's status is the left fold (start `PASS`) of its condition
statuses in declaration order, where the first `FAIL` fixes the result at
`FAIL` irrespective of all later conditions (short-circuit), a `PEND` sets
the accumulator but scanning continues so a later `FAIL` overrides it, and
an empty condition list yields `PASS`. -/
theorem c2_rule_status_fold (conds : List RuleCondition) (ctx : PatientContext) :
    (foldConditions conds ctx =
        (conds.map (fun c => evaluate_condition c ctx)).foldl statusStep .PASS) ∧
    (∀ (pre : List RuleCondition) (c : RuleCondition) (post : List RuleCondition),
        evaluate_condition c ctx = .FAIL →
        foldConditions (pre ++ c :: post) ctx = .FAIL) ∧
    foldConditions [] ctx = .PASS := by
  refine ⟨foldConditionsFrom_eq_foldl ctx conds .PASS (by simp), ?_, rfl⟩
  intro pre c post h
  exact foldConditionsFrom_fail_short_circuit ctx c post h pre .PASS

/-- Witness for C2 at the §8 dominance example: a PEND-producing condition
followed by a FAIL-producing one yields rule status `FAIL`. -/
theorem c2_rule_status_fold_witness :
    foldConditions [demoPendCond, demoAgeCond] demoPatient = .FAIL :=
  (c2_rule_status_fold [demoPendCond, demoAgeCond] demoPatient).2.1
    [demoPendCond] demoAgeCond [] (by decide)

/-- C4: the manual-review sentinel parameter gives `PEND` unconditionally,
and a parameter absent from the context gives `PEND` regardless of the
operator and value (no comparison is attempted). -/
theorem c4_sentinel_and_missing_pend (cond : RuleCondition) (ctx : PatientContext) :
    (cond.parameter = "manual_review" → evaluate_condition cond ctx = .PEND) ∧
    (ctx.lookup cond.parameter = none → evaluate_condition cond ctx = .PEND) := by
  constructor
  · intro h
    simp [evaluate_condition, h]
  · intro h
    by_cases hm : cond.parameter = "manual_review"
    · simp [evaluate_condition, hm]
    · simp [evaluate_condition, hm, h]

/-- Witness for C4: the sentinel under a `gte` operator, and the §8 missing
parameter `diagnosis_code`, both give `PEND` on the demo patient. -/
theorem c4_sentinel_and_missing_pend_witness :
    evaluate_condition ⟨"manual_review", "gte", .int 3⟩ demoPatient = .PEND ∧
    evaluate_condition ⟨"diagnosis_code", "contains", .str "M17.11"⟩ demoPatient = .PEND :=
  ⟨(c4_sentinel_and_missing_pend ⟨"manual_review", "gte", .int 3⟩ demoPatient).1 rfl,
   (c4_sentinel_and_missing_pend ⟨"diagnosis_code", "contains", .str "M17.11"⟩
      demoPatient).2 rfl⟩

/-- C5: with the parameter present, an operator outside the five recognized
names resolves to `PEND` (fail-open), while a raised comparison error inside
a recognized operator is caught and resolves to `FAIL` (fail-closed); the
evaluator is total, so no exception reaches the caller. -/
theorem c5_unknown_op_pend_error_fail (cond : RuleCondition) (ctx : PatientContext)
    (actual : Value) (hm : cond.parameter ≠ "manual_review")
    (hl : ctx.lookup cond.parameter = some actual) :
    (cond.operator ∉ (["equals", "gte", "lte", "one_of", "contains"] : List String) →
        evaluate_condition cond ctx = .PEND) ∧
    (cond.operator = "gte" → pyGe actual cond.value = none →
        evaluate_condition cond ctx = .FAIL) ∧
    (cond.operator = "lte" → pyLe actual cond.value = none →
        evaluate_condition cond ctx = .FAIL) ∧
    (cond.operator = "one_of" → pyIn actual cond.value = none →
        evaluate_condition cond ctx = .FAIL) ∧
    (cond.operator = "contains" → containsCheck actual cond.value = none →
        evaluate_condition cond ctx = .FAIL) := by
  refine ⟨?_, ?_, ?_, ?_, ?_⟩
  · intro hop
    simp only [List.mem_cons, List.not_mem_nil, or_false, not_or] at hop
    obtain ⟨h1, h2, h3, h4, h5⟩ := hop
    simp [evaluate_condition, hm, hl, h1, h2, h3, h4, h5]
  · intro hop hn
    simp [evaluate_condition, hm, hl, hop, hn, cmpStatus]
  · intro hop hn
    simp [evaluate_condition, hm, hl, hop, hn, cmpStatus]
  · intro hop hn
    simp [evaluate_condition, hm, hl, hop, hn, cmpStatus]
  · intro hop hn
    simp [evaluate_condition, hm, hl, hop, hn, cmpStatus]

/-- Witness for C5: an unrecognized operator on a present parameter gives
`PEND`, and a `gte` type mismatch (int age against a string bound) gives
`FAIL`, on the demo patient. -/
theorem c5_unknown_op_pend_error_fail_witness :
    evaluate_condition ⟨"age", "frobnicate", .int 3⟩ demoPatient = .PEND ∧
    evaluate_condition ⟨"age", "gte", .str "18"⟩ demoPatient = .FAIL :=
  ⟨(c5_unknown_op_pend_error_fail ⟨"age", "frobnicate", .int 3⟩ demoPatient (.int 17)
      (by decide) rfl).1 (by decide),
   (c5_unknown_op_pend_error_fail ⟨"age", "gte", .str "18"⟩ demoPatient (.int 17)
      (by decide) rfl).2.1 rfl rfl⟩

/-- C6: for a `contains` condition on a present parameter, a list context
value passes iff the condition value is an element of the list (Python
`==` membership); a non-list context value passes iff the condition value
is a substring of its string form, failing otherwise — including a `FAIL`
via the caught `TypeError` when the condition value is not a string. -/
theorem c6_contains_semantics (cond : RuleCondition) (ctx : PatientContext)
    (hm : cond.parameter ≠ "manual_review") (hop : cond.operator = "contains") :
    (∀ vs : List Value, ctx.lookup cond.parameter = some (.list vs) →
        evaluate_condition cond ctx =
          if vs.any (fun v => pyEq v cond.value) then .PASS else .FAIL) ∧
    (∀ (actual : Value) (s : String), ctx.lookup cond.parameter = some actual →
        (∀ vs : List Value, actual ≠ .list vs) → cond.value = .str s →
        evaluate_condition cond ctx =
          if strContains (pyStr actual) s then .PASS else .FAIL) ∧
    (∀ actual : Value, ctx.lookup cond.parameter = some actual →
        (∀ vs : List Value, actual ≠ .list vs) → (∀ s : String, cond.value ≠ .str s) →
        evaluate_condition cond ctx = .FAIL) := by
  refine ⟨?_, ?_, ?_⟩
  · intro vs hl
    cases hb : vs.any (fun v => pyEq v cond.value) <;>
      simp [evaluate_condition, hm, hl, hop, containsCheck, cmpStatus, hb]
  · intro actual s hl hnl hv
    cases actual with
    | list vs => exact absurd rfl (hnl vs)
    | int n =>
        cases hb : strContains (pyStr (.int n)) s <;>
          simp [evaluate_condition, hm, hl, hop, containsCheck, pyIn, hv, cmpStatus, hb]
    | str a =>
        cases hb : strContains (pyStr (.str a)) s <;>
          simp [evaluate_condition, hm, hl, hop, containsCheck, pyIn, hv, cmpStatus, hb]
    | bool b =>
        cases hb : strContains (pyStr (.bool b)) s <;>
          simp [evaluate_condition, hm, hl, hop, containsCheck, pyIn, hv, cmpStatus, hb]
  · intro actual hl hnl hv
    cases actual with
    | list vs => exact absurd rfl (hnl vs)
    | int n =>
        cases hx : cond.value with
        | str s => exact absurd hx (hv s)
        | int m => simp [evaluate_condition, hm, hl, hop, containsCheck, pyIn, hx, cmpStatus]
        | bool b => simp [evaluate_condition, hm, hl, hop, containsCheck, pyIn, hx, cmpStatus]
        | list vs => simp [evaluate_condition, hm, hl, hop, containsCheck, pyIn, hx, cmpStatus]
    | str a =>
        cases hx : cond.value with
        | str s => exact absurd hx (hv s)
        | int m => simp [evaluate_condition, hm, hl, hop, containsCheck, pyIn, hx, cmpStatus]
        | bool b => simp [evaluate_condition, hm, hl, hop, containsCheck, pyIn, hx, cmpStatus]
        | list vs => simp [evaluate_condition, hm, hl, hop, containsCheck, pyIn, hx, cmpStatus]
    | bool b =>
        cases hx : cond.value with
        | str s => exact absurd hx (hv s)
        | int m => simp [evaluate_condition, hm, hl, hop, containsCheck, pyIn, hx, cmpStatus]
        | bool c => simp [evaluate_condition, hm, hl, hop, containsCheck, pyIn, hx, cmpStatus]
        | list vs => simp [evaluate_condition, hm, hl, hop, containsCheck, pyIn, hx, cmpStatus]

/-- Witness for C6 at the §8 examples: `diagnosis_codes = ["M17.11"]`
contains `"M17.11"` (PASS) and does not contain `"M99.99"` (FAIL). -/
theorem c6_contains_semantics_witness :
    evaluate_condition demoDxCond demoPatient = .PASS ∧
    evaluate_condition { demoDxCond with value := .str "M99.99" } demoPatient = .FAIL := by
  constructor
  · have h := (c6_contains_semantics demoDxCond demoPatient (by decide) rfl).1
      [.str "M17.11"] rfl
    simpa using h
  · have h := (c6_contains_semantics { demoDxCond with value := .str "M99.99" }
      demoPatient (by decide) rfl).1 [.str "M17.11"] rfl
    simpa using h

/-! ## Theorems about `RuleEngine.evaluate` aggregation -/

/-- The rule loop in closed form: results are one `mkResult` per rule in
input order; `failed_rules` keeps exactly the required rules with status
`FAIL`; `missing_info` keeps exactly the rules with status `PEND`. -/
theorem evalRules_spec (ctx : PatientContext) (rules : List Rule) :
    evalRules ctx rules =
      (rules.map (fun r => mkResult r ctx),
       (rules.filter (fun r => decide (ruleStatus r ctx = .FAIL ∧ r.required = true))).map
         (fun r => mkResult r ctx),
       (rules.filter (fun r => decide (ruleStatus r ctx = .PEND))).map
         (fun r => mkResult r ctx)) := by
  induction rules with
  | nil => rfl
  | cons r rest ih =>
      have key : evalRules ctx (r :: rest) =
          (mkResult r ctx :: (evalRules ctx rest).1,
           if ruleStatus r ctx = .FAIL ∧ r.required = true then
             mkResult r ctx :: (evalRules ctx rest).2.1
           else (evalRules ctx rest).2.1,
           if ruleStatus r ctx = .FAIL ∧ r.required = true then (evalRules ctx rest).2.2
           else if ruleStatus r ctx = .PEND then mkResult r ctx :: (evalRules ctx rest).2.2
           else (evalRules ctx rest).2.2) := by
        rcases hev : evalRules ctx rest with ⟨rs, fs, ms⟩
        simp [evalRules, hev, ruleStatus]
      rw [key, ih]
      dsimp only
      by_cases h1 : ruleStatus r ctx = .FAIL ∧ r.required = true
      · have h2 : ¬ ruleStatus r ctx = .PEND := by
          intro hp
          rw [hp] at h1
          exact absurd h1.1 (by simp)
        rw [if_pos h1, if_pos h1,
          List.filter_cons_of_pos (p := fun r =>
            decide (ruleStatus r ctx = .FAIL ∧ r.required = true)) (by simpa using h1),
          List.filter_cons_of_neg (p := fun r =>
            decide (ruleStatus r ctx = .PEND)) (by simpa using h2),
          List.map_cons, List.map_cons]
      · rw [if_neg h1, if_neg h1,
          List.filter_cons_of_neg (p := fun r =>
            decide (ruleStatus r ctx = .FAIL ∧ r.required = true)) (by simpa using h1)]
        by_cases h2 : ruleStatus r ctx = .PEND
        · rw [if_pos h2,
            List.filter_cons_of_pos (p := fun r =>
              decide (ruleStatus r ctx = .PEND)) (by simpa using h2),
            List.map_cons, List.map_cons]
        · rw [if_neg h2,
            List.filter_cons_of_neg (p := fun r =>
              decide (ruleStatus r ctx = .PEND)) (by simpa using h2),
            List.map_cons]

/-- `RuleEngine.evaluate` in closed form. -/
theorem evaluate_eq (rules : List Rule) (patient : PatientContext) :
    RuleEngine.evaluate rules patient =
      { decision := decisionOf
          ((rules.filter (fun r => decide (ruleStatus r patient = .FAIL ∧ r.required = true))).map
            (fun r => mkResult r patient))
          ((rules.filter (fun r => decide (ruleStatus r patient = .PEND))).map
            (fun r => mkResult r patient))
        failed_rules :=
          (rules.filter (fun r => decide (ruleStatus r patient = .FAIL ∧ r.required = true))).map
            (fun r => mkResult r patient)
        all_results := rules.map (fun r => mkResult r patient) } := by
  unfold RuleEngine.evaluate
  rw [evalRules_spec]

/-- The aggregation conditional always yields one of the three decisions. -/
theorem decisionOf_mem (F M : List EvaluationResult) :
    decisionOf F M = "APPROVE" ∨ decisionOf F M = "PEND" ∨ decisionOf F M = "DENY" := by
  unfold decisionOf
  by_cases h1 : F = [] ∧ M = []
  · rw [if_pos h1]
    exact Or.inl rfl
  · rw [if_neg h1]
    by_cases h2 : M ≠ []
    · rw [if_pos h2]
      exact Or.inr (Or.inl rfl)
    · rw [if_neg h2]
      exact Or.inr (Or.inr rfl)

/-- The aggregation conditional in terms of the two filtered lists. -/
theorem decisionOf_cases (F M : List EvaluationResult) :
    (decisionOf F M = "APPROVE" ↔ F = [] ∧ M = []) ∧
    (decisionOf F M = "PEND" ↔ M ≠ []) ∧
    (decisionOf F M = "DENY" ↔ F ≠ [] ∧ M = []) := by
  unfold decisionOf
  by_cases hF : F = [] <;> by_cases hM : M = [] <;> simp [hF, hM]

/-- C1: the decision is `APPROVE` iff no required rule has status `FAIL` and
no rule has status `PEND`; it is `PEND` iff some rule has status `PEND`
(taking priority over `DENY`); it is `DENY` iff some required rule has
status `FAIL` and no rule has status `PEND`; `failed_rules` holds exactly
the results of required `FAIL` rules (in order), while `all_results` holds
every rule's result — so non-required `FAIL`s appear there but not in
`failed_rules`. -/
theorem c1_decision_aggregation (rules : List Rule) (patient : PatientContext) :
    ((RuleEngine.evaluate rules patient).decision = "APPROVE" ↔
        (∀ r ∈ rules, ¬(ruleStatus r patient = .FAIL ∧ r.required = true)) ∧
        (∀ r ∈ rules, ruleStatus r patient ≠ .PEND)) ∧
    ((RuleEngine.evaluate rules patient).decision = "PEND" ↔
        ∃ r ∈ rules, ruleStatus r patient = .PEND) ∧
    ((RuleEngine.evaluate rules patient).decision = "DENY" ↔
        (∃ r ∈ rules, ruleStatus r patient = .FAIL ∧ r.required = true) ∧
        (∀ r ∈ rules, ruleStatus r patient ≠ .PEND)) ∧
    ((RuleEngine.evaluate rules patient).failed_rules =
        (rules.filter (fun r => decide (ruleStatus r patient = .FAIL ∧ r.required = true))).map
          (fun r => mkResult r patient)) ∧
    ((RuleEngine.evaluate rules patient).all_results =
        rules.map (fun r => mkResult r patient)) := by
  rw [evaluate_eq]
  refine ⟨?_, ?_, ?_, rfl, rfl⟩
  · rw [(decisionOf_cases _ _).1]
    simp [List.filter_eq_nil_iff]
  · rw [(decisionOf_cases _ _).2.1]
    simp only [ne_eq, List.map_eq_nil_iff, List.filter_eq_nil_iff, decide_eq_true_eq,
      not_forall]
    constructor
    · rintro ⟨r, hr, hp⟩
      exact ⟨r, hr, not_not.mp hp⟩
    · rintro ⟨r, hr, hp⟩
      exact ⟨r, hr, not_not.mpr hp⟩
  · rw [(decisionOf_cases _ _).2.2]
    simp only [ne_eq, List.map_eq_nil_iff, List.filter_eq_nil_iff, decide_eq_true_eq,
      not_forall]
    constructor
    · rintro ⟨⟨r, hr, hf⟩, hM⟩
      refine ⟨⟨r, hr, not_not.mp hf⟩, ?_⟩
      intro x hx
      exact hM x hx
    · rintro ⟨⟨r, hr, hf⟩, hM⟩
      exact ⟨⟨r, hr, not_not.mpr hf⟩, fun x hx => hM x hx⟩

/-- Witness for C1 at the §8 aggregation examples: required age FAIL plus a
non-required PEND rule gives decision `PEND` (PEND dominates DENY), and
the end-to-end scenario (age FAIL, diagnosis PASS, no PEND) gives `DENY`. -/
theorem c1_decision_aggregation_witness :
    (RuleEngine.evaluate [demoAgeRule, demoPendRule] demoPatient).decision = "PEND" ∧
    (RuleEngine.evaluate [demoAgeRule, demoDxRule] demoPatient).decision = "DENY" :=
  ⟨(c1_decision_aggregation [demoAgeRule, demoPendRule] demoPatient).2.1.mpr
      ⟨demoPendRule, by simp, by decide⟩,
   (c1_decision_aggregation [demoAgeRule, demoDxRule] demoPatient).2.2.1.mpr
      ⟨⟨demoAgeRule, by simp, by decide, rfl⟩, by decide⟩⟩

/-- C9: `RuleEngine.evaluate` is deterministic — equal rule lists and equal
patient contexts produce equal outputs, the output being a pure function of
exactly these two inputs. -/
theorem c9_deterministic (rules₁ rules₂ : List Rule) (p₁ p₂ : PatientContext)
    (hr : rules₁ = rules₂) (hp : p₁ = p₂) :
    RuleEngine.evaluate rules₁ p₁ = RuleEngine.evaluate rules₂ p₂ := by
  rw [hr, hp]

/-- Witness for C9 on the demo inputs. -/
theorem c9_deterministic_witness :
    RuleEngine.evaluate [demoAgeRule, demoDxRule] demoPatient =
      RuleEngine.evaluate [demoAgeRule, demoDxRule] demoPatient :=
  c9_deterministic [demoAgeRule, demoDxRule] [demoAgeRule, demoDxRule]
    demoPatient demoPatient rfl rfl

/-- C10: evaluation always returns normally with a three-valued decision and
exactly one `EvaluationResult` per input rule, in input order (ids line up
positionally); the condition evaluator is total with values in
`{PASS, FAIL, PEND}`, so no comparison exception reaches the caller. -/
theorem c10_total_evaluation (rules : List Rule) (patient : PatientContext) :
    ((RuleEngine.evaluate rules patient).all_results.map EvaluationResult.rule_id =
        rules.map Rule.id) ∧
    ((RuleEngine.evaluate rules patient).all_results.length = rules.length) ∧
    ((RuleEngine.evaluate rules patient).decision = "APPROVE" ∨
        (RuleEngine.evaluate rules patient).decision = "PEND" ∨
        (RuleEngine.evaluate rules patient).decision = "DENY") ∧
    (∀ cond : RuleCondition, evaluate_condition cond patient = .PASS ∨
        evaluate_condition cond patient = .FAIL ∨
        evaluate_condition cond patient = .PEND) := by
  rw [evaluate_eq]
  refine ⟨?_, ?_, ?_, ?_⟩
  · simp [mkResult]
  · simp
  · exact decisionOf_mem _ _
  · intro cond
    cases h : evaluate_condition cond patient <;> simp [h]

/-! ## Theorems about the registry store -/

/-- When no stored candidate's own id matches, the update loop finds
nothing. -/
theorem updateFirst_none (uid status : String) (nl : Option String) :
    ∀ rules : List StoredCandidate, (∀ c ∈ rules, c.id ≠ uid) →
      RegistryStore.updateFirst uid status nl rules = none
  | [], _ => rfl
  | c :: rest, h => by
      simp only [RegistryStore.updateFirst]
      rw [if_neg (h c (List.mem_cons_self c rest)),
        updateFirst_none uid status nl rest (fun x hx => h x (List.mem_cons_of_mem c hx))]
      rfl

/-- C8: an `update_rule_status` call whose candidate id matches no stored
candidate leaves the persisted registry untouched and reports the miss via
the not-updated outcome (the document is not rewritten); no exception is
raised. -/
theorem c8_unknown_id_noop (reg : Registry) (uid st : String) (nl : Option String)
    (h : ∀ c ∈ reg.rules, c.id ≠ uid) :
    RegistryStore.update_rule_status reg uid st nl = (reg, false) := by
  unfold RegistryStore.update_rule_status
  rw [updateFirst_none uid st nl reg.rules h]

/-- Witness for C8: updating the absent id Y in the demo registry is a
no-op. -/
theorem c8_unknown_id_noop_witness :
    RegistryStore.update_rule_status demoRegistry "Y" "APPROVED" none =
      (demoRegistry, false) :=
  c8_unknown_id_noop demoRegistry "Y" "APPROVED" none (by decide)

/-- The in-place record mutation never touches the stored conditions. -/
theorem updateCandidate_conditions (c : StoredCandidate) (st : String)
    (nl : Option String) :
    (RegistryStore.updateCandidate c st nl).rule_data.conditions =
      c.rule_data.conditions := by
  unfold RegistryStore.updateCandidate
  by_cases h : strTruthy nl = true
  · rw [if_pos h]
  · rw [if_neg h]

/-- The update loop, on a match, preserves every stored candidate's
conditions (and ids, and the list length). -/
theorem updateFirst_map_conditions (uid st : String) (nl : Option String) :
    ∀ (rules newRules : List StoredCandidate),
      RegistryStore.updateFirst uid st nl rules = some newRules →
      newRules.map (fun c => c.rule_data.conditions) =
        rules.map (fun c => c.rule_data.conditions)
  | [], _, h => by simp [RegistryStore.updateFirst] at h
  | c :: rest, newRules, h => by
      simp only [RegistryStore.updateFirst] at h
      by_cases hc : c.id = uid
      · rw [if_pos hc] at h
        obtain rfl := (Option.some.inj h).symm
        simp [updateCandidate_conditions]
      · rw [if_neg hc] at h
        cases hrest : RegistryStore.updateFirst uid st nl rest with
        | none => rw [hrest] at h; simp at h
        | some nr =>
            rw [hrest] at h
            simp only [Option.map_some'] at h
            obtain rfl := (Option.some.inj h).symm
            simp [updateFirst_map_conditions uid st nl rest nr hrest]

/-- The update loop updates exactly the first match, leaving the rest of
the list as it was. -/
theorem updateFirst_first_match (uid st : String) (nl : Option String) :
    ∀ (pre : List StoredCandidate) (c : StoredCandidate) (post : List StoredCandidate),
      (∀ x ∈ pre, x.id ≠ uid) → c.id = uid →
      RegistryStore.updateFirst uid st nl (pre ++ c :: post) =
        some (pre ++ RegistryStore.updateCandidate c st nl :: post)
  | [], c, post, _, hc => by
      simp only [List.nil_append, RegistryStore.updateFirst]
      rw [if_pos hc]
  | p :: pre, c, post, h, hc => by
      simp only [List.cons_append, RegistryStore.updateFirst, List.append_eq]
      rw [if_neg (h p (List.mem_cons_self p pre)),
        updateFirst_first_match uid st nl pre c post
          (fun x hx => h x (List.mem_cons_of_mem p hx)) hc]
      rfl

/-- `update_rule_status` preserves the conditions of every stored
candidate, matched or not. -/
theorem update_rule_status_conditions (reg : Registry) (uid st : String)
    (nl : Option String) :
    (RegistryStore.update_rule_status reg uid st nl).1.rules.map
        (fun c => c.rule_data.conditions) =
      reg.rules.map (fun c => c.rule_data.conditions) := by
  unfold RegistryStore.update_rule_status
  cases hup : RegistryStore.updateFirst uid st nl reg.rules with
  | none => rfl
  | some newRules =>
      exact updateFirst_map_conditions uid st nl reg.rules newRules hup

/-- Every rule materialized by `get_approved_rules` carries the conditions
of some stored candidate verbatim (`Rule(**rule_data)` drops the extra
`logic_expression` key and keeps `conditions`). -/
theorem get_approved_rules_conditions (reg : Registry) (pid : Option String) :
    ∀ r ∈ RegistryStore.get_approved_rules reg pid,
      ∃ c ∈ reg.rules, r.conditions = c.rule_data.conditions := by
  intro r hr
  unfold RegistryStore.get_approved_rules at hr
  rw [List.mem_filterMap] at hr
  obtain ⟨c, hc, hsome⟩ := hr
  refine ⟨c, hc, ?_⟩
  by_cases h1 : c.status = "APPROVED"
  · rw [if_pos h1] at hsome
    by_cases h2 : strTruthy pid = true ∧ c.rule_data.parent_policy_id ≠ pid
    · rw [if_pos h2] at hsome
      exact absurd hsome (by simp)
    · rw [if_neg h2] at hsome
      obtain rfl := Option.some.inj hsome
      rfl
  · rw [if_neg h1] at hsome
    exact absurd hsome (by simp)

/-- C3 (amended): `update_rule_status(X, new_status, new_logic)` sets the
first matching candidate's `status` to `new_status`, and the optional third
argument is stored under the dead `rule_data["logic_expression"]` key — it
never replaces the embedded rule's `conditions`, so every candidate's
conditions survive the call unchanged and `get_approved_rules` afterwards
returns rules whose conditions are the originally stored ones. -/
theorem c3_update_preserves_conditions (reg : Registry) (uid st : String)
    (nl : Option String) :
    ((RegistryStore.update_rule_status reg uid st nl).1.rules.map
        (fun c => c.rule_data.conditions) =
      reg.rules.map (fun c => c.rule_data.conditions)) ∧
    (∀ pid : Option String,
      ∀ r ∈ RegistryStore.get_approved_rules
          (RegistryStore.update_rule_status reg uid st nl).1 pid,
        ∃ c ∈ reg.rules, r.conditions = c.rule_data.conditions) ∧
    (∀ (pre : List StoredCandidate) (c : StoredCandidate) (post : List StoredCandidate),
        reg.rules = pre ++ c :: post → (∀ x ∈ pre, x.id ≠ uid) → c.id = uid →
        (RegistryStore.update_rule_status reg uid st nl).1.rules =
            pre ++ RegistryStore.updateCandidate c st nl :: post ∧
          (RegistryStore.updateCandidate c st nl).status = st ∧
          (RegistryStore.updateCandidate c st nl).rule_data.conditions =
            c.rule_data.conditions) := by
  refine ⟨update_rule_status_conditions reg uid st nl, ?_, ?_⟩
  · intro pid r hr
    obtain ⟨c', hc', hco⟩ :=
      get_approved_rules_conditions (RegistryStore.update_rule_status reg uid st nl).1 pid r hr
    have hmem : c'.rule_data.conditions ∈
        (RegistryStore.update_rule_status reg uid st nl).1.rules.map
          (fun c => c.rule_data.conditions) :=
      List.mem_map_of_mem _ hc'
    rw [update_rule_status_conditions] at hmem
    obtain ⟨c, hc, hcc⟩ := List.mem_map.mp hmem
    exact ⟨c, hc, by rw [hco, ← hcc]⟩
  · intro pre c post hreg hpre hc
    refine ⟨?_, rfl, updateCandidate_conditions c st nl⟩
    unfold RegistryStore.update_rule_status
    rw [hreg, updateFirst_first_match uid st nl pre c post hpre hc]

/-- Witness for C3 (amended) on the demo registry: updating candidate X to
APPROVED with a new logic string yields exactly the updated record, with
status APPROVED and the original (empty) conditions. -/
theorem c3_update_preserves_conditions_witness :
    (RegistryStore.update_rule_status demoRegistry "X" "APPROVED"
        (some "age gte 21")).1.rules =
      [RegistryStore.updateCandidate demoStoredCandidate "APPROVED" (some "age gte 21")] ∧
    (RegistryStore.updateCandidate demoStoredCandidate "APPROVED"
        (some "age gte 21")).status = "APPROVED" ∧
    (RegistryStore.updateCandidate demoStoredCandidate "APPROVED"
        (some "age gte 21")).rule_data.conditions = [] :=
  have h := (c3_update_preserves_conditions demoRegistry "X" "APPROVED"
    (some "age gte 21")).2.2 [] demoStoredCandidate [] rfl (by simp) rfl
  ⟨h.1, h.2.1, h.2.2⟩

/-- Counterexample to C3 as stated: on the demo registry (candidate X,
DRAFT, conditions `[]`, policy P1), calling `update_rule_status` with the
optional review-correction argument and then `get_approved_rules("P1")`
returns a rule whose conditions are still `[]` — not the supplied
`[{age, gte, 21}]`. -/
theorem c3_counterexample :
    ((RegistryStore.get_approved_rules
        (RegistryStore.update_rule_status demoRegistry "X" "APPROVED"
          (some "age gte 21")).1 (some "P1")).map Rule.conditions = [[]]) ∧
    (([] : List RuleCondition) ≠
      [{ parameter := "age", operator := "gte", value := .int 21 }]) := by
  constructor
  · rfl
  · intro h
    simp at h

/-! ## Theorems about the rule miner -/

/-- The chunk loop produces one candidate per chunk. -/
theorem mineFrom_length (extract : String → Option Extraction) (cid rid : Nat → String) :
    ∀ (n : Nat) (chunks : List Chunk),
      (RuleMiner.mineFrom extract cid rid n chunks).length = chunks.length
  | _, [] => rfl
  | n, c :: rest => by
      simp [RuleMiner.mineFrom, mineFrom_length extract cid rid (n + 1) rest]

/-- The candidate at position `i` is the mining of the chunk at position
`i`, with the position-offset id generators. -/
theorem mineFrom_getElem (extract : String → Option Extraction) (cid rid : Nat → String) :
    ∀ (n i : Nat) (chunks : List Chunk) (chunk : Chunk), chunks[i]? = some chunk →
      (RuleMiner.mineFrom extract cid rid n chunks)[i]? =
        some (RuleMiner.mineChunk extract cid rid (n + i) chunk)
  | _, i, [], chunk, h => by simp at h
  | n, 0, c :: rest, chunk, h => by
      simp only [List.getElem?_cons_zero, Option.some.injEq] at h
      subst h
      simp [RuleMiner.mineFrom]
  | n, i + 1, c :: rest, chunk, h => by
      simp only [List.getElem?_cons_succ] at h
      have hrec := mineFrom_getElem extract cid rid (n + 1) i rest chunk h
      rw [show n + 1 + i = n + (i + 1) by omega] at hrec
      simpa [RuleMiner.mineFrom] using hrec

/-- C7 (amended): the miner produces exactly one DRAFT candidate per chunk,
with the generated candidate id, the fixed placeholder confidence 0.75, and
the embedded rule's `parent_policy_id` set to the placeholder `"UNKNOWN"`
(not left unset); on a falsy extraction result the rule has the single
`manual_review` condition, the chunk's default category as its type, and
the truncated description; `add_candidates` later overwrites the
placeholder with the real policy id at registry insertion. -/
theorem c7_miner_wraps_chunks (extract : String → Option Extraction)
    (cid rid : Nat → String) (chunks : List Chunk) :
    ((RuleMiner.mine_rules extract cid rid chunks).length = chunks.length) ∧
    (∀ (i : Nat) (chunk : Chunk), chunks[i]? = some chunk →
      ∃ cand, (RuleMiner.mine_rules extract cid rid chunks)[i]? = some cand ∧
        cand.status = "DRAFT" ∧
        cand.confidence = 3 / 4 ∧
        cand.id = cid i ∧
        cand.source_chunk_id = chunk.id ∧
        cand.rule_data.id = rid i ∧
        cand.rule_data.parent_policy_id = some "UNKNOWN" ∧
        (extract chunk.text = none →
          cand.rule_data.conditions = [manualReviewCondition] ∧
          cand.rule_data.type = chunk.rule_type_meta.getD "Eligibility" ∧
          cand.rule_data.description = truncate100 chunk.text)) ∧
    (∀ (reg : Registry) (cands : List CandidateRule) (pid : String),
      ∀ sc ∈ (RegistryStore.add_candidates reg cands pid).rules,
        sc ∈ reg.rules ∨ sc.rule_data.parent_policy_id = some pid) := by
  refine ⟨mineFrom_length extract cid rid 0 chunks, ?_, ?_⟩
  · intro i chunk h
    refine ⟨RuleMiner.mineChunk extract cid rid i chunk, ?_, rfl, rfl, rfl, rfl, rfl, rfl, ?_⟩
    · have hg := mineFrom_getElem extract cid rid 0 i chunks chunk h
      rw [Nat.zero_add] at hg
      exact hg
    · intro hnone
      refine ⟨?_, ?_, ?_⟩ <;> simp [RuleMiner.mineChunk, hnone]
  · intro reg cands pid sc hsc
    unfold RegistryStore.add_candidates at hsc
    rw [List.mem_append] at hsc
    rcases hsc with hsc | hsc
    · exact Or.inl hsc
    · rw [List.mem_map] at hsc
      obtain ⟨c, _, rfl⟩ := hsc
      exact Or.inr rfl

/-- Witness for C7 (amended) on the demo chunk with a falsy extraction. -/
theorem c7_miner_wraps_chunks_witness :
    ∃ cand, (RuleMiner.mine_rules (fun _ => none) demoCid demoRid [demoChunk])[0]? =
        some cand ∧ cand.status = "DRAFT" ∧
      cand.rule_data.conditions = [manualReviewCondition] :=
  have h := (c7_miner_wraps_chunks (fun _ => none) demoCid demoRid [demoChunk]).2.1
    0 demoChunk rfl
  match h with
  | ⟨cand, hget, hst, _, _, _, _, _, hfb⟩ =>
      ⟨cand, hget, hst, (hfb rfl).1⟩

/-- Counterexample to C7 as stated: the miner does not leave
`parent_policy_id` unset — on the demo chunk it is the placeholder
`some "UNKNOWN"`, not `none`. -/
theorem c7_counterexample :
    ((RuleMiner.mine_rules (fun _ => none) demoCid demoRid [demoChunk]).map
        (fun c => c.rule_data.parent_policy_id) = [some "UNKNOWN"]) ∧
    (some "UNKNOWN" ≠ (none : Option String)) := by
  constructor
  · rfl
  · simp

end PolicyMatcher
